import Mathlib

/-!
Verification of the multi-branch CNN fan-out / fusion layer of the
OKDDip-AAAI2020 repository (files `models/model_cifar/densenet_one.py`,
`models/model_cifar/mobilenetv2_one.py`, `models/model_cifar/DML.py`).

Shallow embedding conventions:

* A logits tensor of shape `[batch, num_classes]` is modelled as a function
  `Mat := Nat → Nat → ℚ` (batch index, class index); a 4-d feature map
  `[batch, channel, h, w]` as `Nat → Nat → Nat → Nat → ℚ`.  All tensor
  arithmetic in the fusion code is elementwise / broadcast, so pointwise
  rational functions are a faithful model of the float tensors (exactness of
  ℚ stands in for "within floating-point tolerance" statements).
* The per-branch heads (`layer3_i`/`layer4_i` stacks, final norm/relu/pool and
  `classifier*_i`) are opaque compositions of library modules with
  branch-private parameters; a head is abstracted as its result on the shared
  trunk output, a parameter `h : Nat → Mat` (branch index ↦ logits).
* `softmax` uses the library exponential; the embedding takes the exponential
  as a parameter `E : ℚ → ℚ`, and theorems that need it assume `∀ q, 0 < E q`,
  which the real exponential satisfies.
* `BatchNorm1d` in evaluation mode is an affine per-feature map
  `v j ↦ a j * v j + bet j`; the gate theorems hold for every `a`, `bet`.
* Python-level failures (missing attribute, `int.unsqueeze`, unbound local)
  are modelled with `Except String`; a `.error s` result names the Python
  failure.  Attribute sets written by the constructors are modelled as the
  list of attribute names `setattr`/assignment produces, in source order.
-/

/-- A `[batch, num_classes]` tensor as a pointwise rational function. -/
abbrev Mat : Type := Nat → Nat → ℚ

/-- The all-zero matrix (used as the out-of-range default for `List.getD`;
indices handed to `getD` are always in range in the reachable paths). -/
def Mat.zero : Mat := fun _ _ => 0

/-- A `[batch, channel, h, w]` feature map as a pointwise rational function. -/
abbrev FeatMap : Type := Nat → Nat → Nat → Nat → ℚ

/-! ## ILR: the gradient-scaling tap (`densenet_one.py`, class `ILR`) -/

/-- The autograd context of `ILR`: `forward` stores `num_branches` on `ctx`. -/
structure ILRCtx where
  num_branches : Nat

/-- `ILR.forward(ctx, input, num_branches)`: stores `num_branches` in the
context and returns `input` unchanged. -/
def ILR.forwardImpl {α : Type} (input : α) (num_branches : Nat) : α × ILRCtx :=
  (input, ⟨num_branches⟩)

/-- `ILR.backward(ctx, grad_output)`: returns
`(grad_output / ctx.num_branches, None)` — the upstream gradient divided by
the branch count stored at forward (tap-application) time, and no gradient
for the `num_branches` argument. -/
def ILR.backwardImpl (ctx : ILRCtx) (grad_output : Mat) : Mat × Option Unit :=
  (fun b c => grad_output b c / (ctx.num_branches : ℚ), none)

/-! ## Per-branch fan-out (`DenseNet.forward` lines 223-238,
`MobileNetV2._forward_impl` lines 229-241): branch 0 seeds `pro`, branches
`1..K-1` are concatenated along a fresh last axis, so `pro` is a list of
`[batch, num_classes]` slices, slice `i` from branch `i`. -/

/-- `pro = h0.unsqueeze(-1)` followed by
`for i in range(1, K): pro = torch.cat([pro, h i], -1)`. -/
def fanoutPro (K : Nat) (h : Nat → Mat) : List Mat :=
  (List.range' 1 (K - 1)).foldl (fun pro i => pro ++ [h i]) [h 0]

/-! ## Gate pipeline (`DenseNet.forward` lines 259-265,
`MobileNetV2._forward_impl` lines 250-255): adaptive-average-pool the trunk
output to one value per channel, `control_v1` linear layer to `K` outputs,
`bn_v1` batch-norm, `F.relu`, `F.softmax(dim=1)`. -/

/-- `F.adaptive_avg_pool2d(x, (1, 1))` followed by `.view(B, -1)`: the mean of
each channel's `H × W` spatial values. -/
def globalAvgPool (H W : Nat) (x : FeatMap) (b ch : Nat) : ℚ :=
  ((List.range H).map (fun i => ((List.range W).map (fun j => x b ch i j)).sum)).sum
    / ((H * W : Nat) : ℚ)

/-- `nn.Linear(Cin, K)` applied to a pooled per-channel vector `v`. -/
def linearLayer (Cin : Nat) (wm : Nat → Nat → ℚ) (bias : Nat → ℚ)
    (v : Nat → ℚ) (j : Nat) : ℚ :=
  bias j + ((List.range Cin).map (fun ch => wm j ch * v ch)).sum

/-- `nn.BatchNorm1d` in evaluation mode: a per-feature affine map with
coefficients `a` (gain over the running variance) and `bet` (shift). -/
def bn1dEval (a bet : Nat → ℚ) (v : Nat → ℚ) (j : Nat) : ℚ :=
  a j * v j + bet j

/-- `F.relu`: clip negatives to zero. -/
def reluQ (q : ℚ) : ℚ := max q 0

/-- `F.softmax(z, dim=1)` over `K` entries, with the exponential abstracted as
a parameter `E` (the library uses the real `exp`, which is strictly positive;
theorems assume `∀ q, 0 < E q`). -/
def softmaxQ (E : ℚ → ℚ) (K : Nat) (z : Nat → ℚ) (i : Nat) : ℚ :=
  E (z i) / ((List.range K).map (fun j => E (z j))).sum

/-- The whole gate pipeline `x_c`: pool → `control_v1` → `bn_v1` → relu →
softmax, producing the weight of branch `i` for batch element `b`. -/
def gateWeights (E : ℚ → ℚ) (K Cin H W : Nat) (x : FeatMap)
    (wm : Nat → Nat → ℚ) (bias a bet : Nat → ℚ) (b i : Nat) : ℚ :=
  softmaxQ E K
    (fun j => reluQ (bn1dEval a bet (linearLayer Cin wm bias (globalAvgPool H W x b)) j)) i

/-- A concrete positive "exponential" used to instantiate gate theorems. -/
def oneE : ℚ → ℚ := fun _ => 1

/-! ## The fused output and Python dynamic values -/

/-- The second component of `forward`'s result when it is present: the gated
mode returns one `[batch, num_classes]` tensor, the leave-one-out-average
mode returns a tensor with a trailing branch axis (a list of slices). -/
inductive Fused where
  | gated : Mat → Fused
  | loo : List Mat → Fused

/-- A Python value that is either still the initial `int 0` accumulator or a
tensor: `x_m = 0` / `temp = 0` start as the Python integer zero and only
become tensors once a tensor is added (`densenet_one.py` lines 244-254). -/
inductive PyVal where
  | intVal : Int → PyVal
  | tensor : Mat → PyVal

/-- `acc += q * m` for an accumulator that may still be the integer zero:
`int + tensor` broadcasts the integer, producing a tensor. -/
def PyVal.addSmul (v : PyVal) (q : ℚ) (m : Mat) : PyVal :=
  match v with
  | .intVal n => .tensor (fun b c => (n : ℚ) + q * m b c)
  | .tensor t => .tensor (fun b c => t b c + q * m b c)

/-- `acc.unsqueeze(-1)`: succeeds on a tensor (the unsqueezed slice is the
same `[batch, num_classes]` data, to be collected into a slice list), and
raises `AttributeError` on a Python `int`. -/
def PyVal.unsqueezeLast : PyVal → Except String Mat
  | .intVal _ => .error "AttributeError: int object has no attribute unsqueeze"
  | .tensor t => .ok t

/-! ## DenseNet (`densenet_one.py`) -/

/-- The coefficient `1/(self.num_branches-1)` of the leave-one-out average. -/
def DenseNet.looCoeff (K : Nat) : ℚ := 1 / ((K : ℚ) - 1)

/-- The inner loop of the leave-one-out average (`densenet_one.py` lines
249-253): `temp = 0; for j in range(0, K): if j != i: temp += 1/(K-1) *
pro[:, :, j]`. -/
def DenseNet.looTemp (K : Nat) (pro : List Mat) (i : Nat) : PyVal :=
  (List.range K).foldl
    (fun t j => if j ≠ i then t.addSmul (DenseNet.looCoeff K) (pro.getD j Mat.zero) else t)
    (.intVal 0)

/-- The leave-one-out-average combiner (`densenet_one.py` lines 243-256):
`x_m = 0`, accumulate `1/(K-1) * pro[:, :, i]` for `i = 1..K-1`, unsqueeze it
into the first fused slot, then append one leave-`i`-out average per
`i = 1..K-1`. -/
def DenseNet.avgFuse (K : Nat) (pro : List Mat) : Except String (List Mat) := do
  let x_m : PyVal := (List.range' 1 (K - 1)).foldl
      (fun acc i => acc.addSmul (DenseNet.looCoeff K) (pro.getD i Mat.zero)) (PyVal.intVal 0)
  let x0 ← x_m.unsqueezeLast
  (List.range' 1 (K - 1)).foldlM
    (fun slots i => do
      let tm ← (DenseNet.looTemp K pro i).unsqueezeLast
      pure (slots ++ [tm]))
    [x0]

/-- `DenseNet.forward` from the trunk output on (`densenet_one.py` lines
217-272).  The trunk output is `x`; when `bpscale` is set the `ILR` tap is
applied to it (identity in the forward direction).  The `K` branch heads are
the abstract `h`; the fan-out builds `pro`.  `ind = True` returns
`(pro, None)`; `avg = True` runs the leave-one-out-average combiner;
otherwise the gate pipeline produces weights and the gated weighted sum
`x_m = Σ_i x_c[:, i] * pro[:, :, i]` is built by the source's accumulation
loop.  All attribute lookups performed on this path exist on the constructed
module for `K ≥ 1` (see `DenseNet.initAttrs`), so they are not modelled as
failures here. -/
def DenseNet.forwardM (K : Nat) (ind avg bpscale : Bool) (E : ℚ → ℚ)
    (Cin H W : Nat) (x : FeatMap) (wm : Nat → Nat → ℚ) (bias a bet : Nat → ℚ)
    (h : Nat → Mat) : Except String (List Mat × Option Fused) :=
  let xt := if bpscale then (ILR.forwardImpl x K).1 else x
  let pro := fanoutPro K h
  if ind then .ok (pro, none)
  else if avg then
    (DenseNet.avgFuse K pro).map (fun slots => (pro, some (Fused.loo slots)))
  else
    let w := fun b i => gateWeights E K Cin H W xt wm bias a bet b i
    let x_m : Mat := (List.range' 1 (K - 1)).foldl
        (fun acc i => fun b c => acc b c + w b i * (pro.getD i Mat.zero) b c)
        (fun b c => w b 0 * (pro.getD 0 Mat.zero) b c)
    .ok (pro, some (Fused.gated x_m))

/-- The attribute names `DenseNet.__init__` defines on the module, in source
order (`densenet_one.py` lines 119-215): scalar configuration fields, the
trunk `features`, one `layer3_i` per branch, the gate (`control_v1`,
`bn_v1`) exactly when `avg == False`, per-branch `norm_final_i` /
`relu_final_i` / `classifier3_i`, the shared `avgpool`, and `layer_ILR` when
`bpscale` is set. -/
def DenseNet.initAttrs (K : Nat) (avg bpscale : Bool) : List String :=
  ["avgpool_size", "num_branches", "avg", "ind", "bpscale", "features"]
  ++ (List.range K).map (fun i => "layer3_" ++ toString i)
  ++ (if avg = false then ["control_v1", "bn_v1"] else [])
  ++ (List.range K).flatMap (fun i => ["norm_final_" ++ toString i, "relu_final_" ++ toString i])
  ++ (List.range K).map (fun i => "classifier3_" ++ toString i)
  ++ ["avgpool"]
  ++ (if bpscale then ["layer_ILR"] else [])

/-- The only failure point of `DenseNet.__init__` is the assertion
`assert 0 < compression <= 1` (`densenet_one.py` line 124); `num_branches`,
`avg`, `ind` and `bpscale` are stored and used to allocate submodules
(`DenseNet.initAttrs`) but never validated. -/
def DenseNet.initCheck (compression : ℚ) (num_branches : Nat)
    (avg ind bpscale : Bool) : Except String Unit :=
  if 0 < compression ∧ compression ≤ 1 then .ok ()
  else .error "compression of densenet should be between 0 and 1"

/-! ## MobileNetV2 (`mobilenetv2_one.py`) -/

/-- The attribute names `MobileNetV2.__init__` defines on the module
(`mobilenetv2_one.py` lines 123-201): configuration fields, the trunk
`features`, per-branch `layer4_i` and `classifier4_i`, and the gate
(`control_v1`, `bn_v1`) exactly when `avg == False`.  No `avgpool` attribute
is ever defined. -/
def MobileNetV2.initAttrs (K : Nat) (avg : Bool) : List String :=
  ["ind", "avg", "bpscale", "num_branches", "last_channel", "features"]
  ++ (List.range K).flatMap (fun i => ["layer4_" ++ toString i, "classifier4_" ++ toString i])
  ++ (if avg = false then ["control_v1", "bn_v1"] else [])

/-- `getattr(self, name)` / `self.name` on a constructed `MobileNetV2`:
succeeds exactly when `__init__` defined the attribute, else raises
`AttributeError` (modelled as `.error name`). -/
def MobileNetV2.getattrE (K : Nat) (avg : Bool) (name : String) : Except String Unit :=
  if name ∈ MobileNetV2.initAttrs K avg then .ok () else .error name

/-- The per-branch fan-out of `MobileNetV2._forward_impl` (lines 229-241):
branch 0 pools with the library function `F.adaptive_avg_pool2d`, while each
branch `i ≥ 1` reads `self.avgpool` — an attribute the constructor never
defines — before reading its own classifier attribute. -/
def MobileNetV2.fanout (K : Nat) (avg : Bool) (h : Nat → Mat) :
    Except String (List Mat) := do
  let _ ← MobileNetV2.getattrE K avg "layer4_0"
  let _ ← MobileNetV2.getattrE K avg "classifier4_0"
  (List.range' 1 (K - 1)).foldlM
    (fun pro i => do
      let _ ← MobileNetV2.getattrE K avg ("layer4_" ++ toString i)
      let _ ← MobileNetV2.getattrE K avg "avgpool"
      let _ ← MobileNetV2.getattrE K avg ("classifier4_" ++ toString i)
      pure (pro ++ [h i]))
    [h 0]

/-- `MobileNetV2._forward_impl` from the trunk output on (lines 227-262):
fan-out (which can fail on `self.avgpool`), then `ind = True` returns
`(pro, None)`; `avg = True` executes `pass` and then `return pro, x_m`
raises `NameError` because the local `x_m` was never assigned; otherwise the
gate pipeline and the gated accumulation loop run as in DenseNet. -/
def MobileNetV2.forwardM (K : Nat) (ind avg : Bool) (E : ℚ → ℚ)
    (Cin H W : Nat) (x : FeatMap) (wm : Nat → Nat → ℚ) (bias a bet : Nat → ℚ)
    (h : Nat → Mat) : Except String (List Mat × Option Fused) := do
  let pro ← MobileNetV2.fanout K avg h
  if ind then pure (pro, none)
  else if avg then Except.error "NameError: name x_m is not defined"
  else
    let w := fun b i => gateWeights E K Cin H W x wm bias a bet b i
    let x_m : Mat := (List.range' 1 (K - 1)).foldl
        (fun acc i => fun b c => acc b c + w b i * (pro.getD i Mat.zero) b c)
        (fun b c => w b 0 * (pro.getD 0 Mat.zero) b c)
    pure (pro, some (Fused.gated x_m))

/-! ## MutualNet (`DML.py`) -/

/-- The architecture family names the `MutualNet.__init__` dispatch
recognises (`DML.py` lines 18-34), in source order. -/
def MutualNet.recognizedModels : List String :=
  ["resnet18", "mobilenet_v2", "vgg16", "densenetd40k12", "densenet121",
   "shufflenet_v2_x0_5"]

/-- One arm of the `MutualNet.__init__` dispatch: a recognised name calls the
corresponding builder (those builders live in sibling files not present
here and are modelled as succeeding — their internals are out of scope), an
unrecognised name raises `NotImplementedError(model)`. -/
def MutualNet.buildStu (model : String) (num_classes : Nat) : Except String Unit :=
  if model ∈ MutualNet.recognizedModels then .ok ()
  else .error ("NotImplementedError: " ++ model)

/-- `MutualNet.__init__` (`DML.py` lines 13-36): for each branch index
`i < num_branches`, dispatch on the model name and attach the student as
attribute `stu{i}`; the first unrecognised dispatch raises before any further
student is attached, and the raise aborts construction (no object is
returned). -/
def MutualNet.initM (model : String) (num_branches num_classes : Nat) :
    Except String (List String) :=
  (List.range num_branches).foldlM
    (fun attrs i => do
      let _ ← MutualNet.buildStu model num_classes
      pure (attrs ++ ["stu" ++ toString i]))
    []

/-! ## Spec-level fusion-mode vocabulary -/

/-- Modelled from the spec: the spec's construction contract names a fusion
mode `independent | gated | leave_one_out_average`; the source exposes the
two booleans `ind` and `avg` (defaults `False`, `False`). -/
inductive FusionMode where
  | independent
  | gated
  | leaveOneOutAverage

/-- The `(ind, avg)` flag pair a fusion mode denotes (the flag a mode does
not mention stays at its source default `False`). -/
def FusionMode.flags : FusionMode → Bool × Bool
  | .independent => (true, false)
  | .gated => (false, false)
  | .leaveOneOutAverage => (false, true)

/-! ## Concrete inputs for counterexamples and witnesses -/

/-- Three constant per-branch logit matrices `L0 = 1`, `L1 = 2`, `L2 = 4`. -/
def hC3 : Nat → Mat := fun i _ _ => ([1, 2, 4] : List ℚ).getD i 0

/-- The all-zero feature map. -/
def zFeat : FeatMap := fun _ _ _ _ => 0

/-- An all-zero weight matrix. -/
def zW : Nat → Nat → ℚ := fun _ _ => 0

/-- An all-zero parameter vector. -/
def zV : Nat → ℚ := fun _ => 0

/-- Extract the leave-one-out-average slice list from a forward result
(empty list when the result has a different shape). -/
def fusedSlots : Except String (List Mat × Option Fused) → List Mat
  | .ok (_, some (.loo l)) => l
  | _ => []

/-! # Theorems -/

/-! ### Generic list lemmas used to normalise the source's accumulation loops -/

theorem foldl_append_singleton {α : Type} (g : Nat → α) :
    ∀ (l : List Nat) (acc : List α),
      l.foldl (fun pro i => pro ++ [g i]) acc = acc ++ l.map g := by
  intro l
  induction l with
  | nil => intro acc; simp
  | cons a t ih => intro acc; simp [List.foldl, ih]

theorem range_eq_cons_range' (K : Nat) (hK : 1 ≤ K) :
    List.range K = 0 :: List.range' 1 (K - 1) := by
  obtain ⟨m, rfl⟩ : ∃ m, K = m + 1 := ⟨K - 1, (Nat.succ_pred_eq_of_pos hK).symm⟩
  rw [List.range_eq_range']
  simp [List.range'_succ]

theorem fanoutPro_eq_map (K : Nat) (hK : 1 ≤ K) (h : Nat → Mat) :
    fanoutPro K h = (List.range K).map h := by
  rw [fanoutPro, foldl_append_singleton, range_eq_cons_range']
  · simp
  · exact hK

theorem fanoutPro_length (K : Nat) (hK : 1 ≤ K) (h : Nat → Mat) :
    (fanoutPro K h).length = K := by
  rw [fanoutPro_eq_map K hK]; simp

theorem fanoutPro_getD (K : Nat) (hK : 1 ≤ K) (h : Nat → Mat)
    (i : Nat) (hi : i < K) : (fanoutPro K h).getD i Mat.zero = h i := by
  rw [fanoutPro_eq_map K hK]
  rw [List.getD_eq_getElem?_getD]
  rw [List.getElem?_map]
  simp [List.getElem?_range hi]

theorem sum_map_div {α : Type} (l : List α) (f : α → ℚ) (d : ℚ) :
    (l.map (fun i => f i / d)).sum = (l.map f).sum / d := by
  induction l with
  | nil => simp
  | cons hd tl ih => simp [ih, add_div]

theorem gate_denominator_pos (E : ℚ → ℚ) (hE : ∀ q, 0 < E q) (K : Nat)
    (hK : 1 ≤ K) (z : Nat → ℚ) :
    0 < ((List.range K).map (fun j => E (z j))).sum := by
  apply List.sum_pos
  · intro q hq
    obtain ⟨j, _, rfl⟩ := List.mem_map.mp hq
    exact hE _
  · simp [List.range_eq_nil]
    omega

/-- C5: the gradient-scaling tap `ILR` is the identity in the forward
direction; its backward pass multiplies the upstream gradient by the constant
`1/K` where `K = num_branches` was captured at tap-application time (stored on
the context by `forward`, not learned, not input-dependent), and in
particular a unit upstream gradient with `K = 4` comes back as exactly
`1/4 = 0.25`. -/
theorem claim_C5_gradient_scaling_tap :
    (∀ (α : Type) (x : α) (K : Nat), (ILR.forwardImpl x K).1 = x) ∧
    (∀ (x : FeatMap) (K : Nat) (g : Mat) (b c : Nat),
        (ILR.backwardImpl (ILR.forwardImpl x K).2 g).1 b c = (1 / (K : ℚ)) * g b c ∧
        (ILR.backwardImpl (ILR.forwardImpl x K).2 g).2 = none) ∧
    (∀ (x : FeatMap) (b c : Nat),
        (ILR.backwardImpl (ILR.forwardImpl x 4).2 (fun _ _ => 1)).1 b c = 1 / 4) := by
  refine ⟨fun α x K => rfl, fun x K g b c => ⟨?_, rfl⟩, fun x b c => ?_⟩
  · simp [ILR.backwardImpl, ILR.forwardImpl, div_eq_mul_inv, mul_comm]
  · norm_num [ILR.backwardImpl, ILR.forwardImpl]

/-- C6: the gate weights are `softmax (relu (bn (linear (gap x))))` — the
`gateWeights` definition is that pipeline — and for every batch element the
`K` weights are non-negative and sum to exactly 1 (in ℚ; the float code is
within tolerance), assuming the exponential `E` inside softmax is strictly
positive (true of the library `exp`) and `K ≥ 1`. -/
theorem claim_C6_gate_weights_simplex (E : ℚ → ℚ) (hE : ∀ q, 0 < E q)
    (K Cin H W : Nat) (hK : 1 ≤ K) (x : FeatMap) (wm : Nat → Nat → ℚ)
    (bias a bet : Nat → ℚ) (b : Nat) :
    (∀ i, 0 ≤ gateWeights E K Cin H W x wm bias a bet b i) ∧
    ((List.range K).map (fun i => gateWeights E K Cin H W x wm bias a bet b i)).sum = 1 := by
  have hD := gate_denominator_pos E hE K hK
    (fun j => reluQ (bn1dEval a bet (linearLayer Cin wm bias (globalAvgPool H W x b)) j))
  constructor
  · intro i
    exact div_nonneg (le_of_lt (hE _)) (le_of_lt hD)
  · rw [show (fun i => gateWeights E K Cin H W x wm bias a bet b i)
        = fun i => E ((fun j => reluQ (bn1dEval a bet
            (linearLayer Cin wm bias (globalAvgPool H W x b)) j)) i)
          / ((List.range K).map (fun j => E (reluQ (bn1dEval a bet
              (linearLayer Cin wm bias (globalAvgPool H W x b)) j)))).sum
        from rfl]
    rw [sum_map_div]
    exact div_self (ne_of_gt hD)

theorem claim_C6_gate_weights_simplex_witness :
    (0 ≤ gateWeights oneE 2 1 1 1 zFeat zW zV zV zV 0 0) ∧
    ((List.range 2).map (fun i => gateWeights oneE 2 1 1 1 zFeat zW zV zV zV 0 i)).sum = 1 :=
  ⟨(claim_C6_gate_weights_simplex oneE (fun q => by norm_num [oneE]) 2 1 1 1
      (by norm_num) zFeat zW zV zV zV 0).1 0,
   (claim_C6_gate_weights_simplex oneE (fun q => by norm_num [oneE]) 2 1 1 1
      (by norm_num) zFeat zW zV zV zV 0).2⟩

theorem foldl_mat_add_apply (g : Nat → Nat → Nat → ℚ) :
    ∀ (l : List Nat) (init : Mat) (b c : Nat),
      (l.foldl (fun acc i => fun b c => acc b c + g i b c) init) b c
        = init b c + (l.map (fun i => g i b c)).sum := by
  intro l
  induction l with
  | nil => intro init b c; simp
  | cons hd tl ih =>
      intro init b c
      rw [List.foldl_cons, ih]
      simp only [List.map_cons, List.sum_cons]
      ring

theorem foldl_addSmul_tensor (q : ℚ) (m : Nat → Mat) :
    ∀ (l : List Nat) (t : Mat),
      l.foldl (fun acc i => acc.addSmul q (m i)) (PyVal.tensor t)
        = PyVal.tensor (fun b c => t b c + (l.map (fun i => q * m i b c)).sum) := by
  intro l
  induction l with
  | nil =>
      intro t
      simp only [List.foldl_nil, List.map_nil, List.sum_nil]
      congr 1
      funext b c
      ring
  | cons hd tl ih =>
      intro t
      rw [List.foldl_cons]
      have hstep : PyVal.addSmul (PyVal.tensor t) q (m hd)
          = PyVal.tensor (fun b c => t b c + q * m hd b c) := rfl
      rw [hstep, ih]
      congr 1
      funext b c
      simp only [List.map_cons, List.sum_cons]
      ring

theorem foldl_addSmul_intZero (q : ℚ) (m : Nat → Mat) (hd : Nat) (tl : List Nat) :
    (hd :: tl).foldl (fun acc i => acc.addSmul q (m i)) (PyVal.intVal 0)
      = PyVal.tensor (fun b c => ((hd :: tl).map (fun i => q * m i b c)).sum) := by
  rw [List.foldl_cons]
  have hstep : PyVal.addSmul (PyVal.intVal 0) q (m hd)
      = PyVal.tensor (fun b c => ((0 : Int) : ℚ) + q * m hd b c) := rfl
  rw [hstep, foldl_addSmul_tensor]
  congr 1
  funext b c
  simp only [List.map_cons, List.sum_cons]
  push_cast
  ring

theorem foldl_ite_ne {β : Type} (i : Nat) (f : β → Nat → β) :
    ∀ (l : List Nat) (init : β),
      l.foldl (fun t j => if j ≠ i then f t j else t) init
        = (l.filter (fun j => j ≠ i)).foldl f init := by
  intro l
  induction l with
  | nil => intro init; rfl
  | cons hd tl ih =>
      intro init
      rw [List.foldl_cons, List.filter_cons]
      by_cases hhd : hd = i
      · rw [if_neg (by simp [hhd]), if_neg (by simp [hhd])]
        exact ih init
      · rw [if_pos hhd, if_pos (by simp [hhd]), List.foldl_cons]
        exact ih (f init hd)

theorem foldlM_unsqueeze_ok (F : Nat → Except String Mat) (s : Nat → Mat) :
    ∀ (l : List Nat), (∀ i ∈ l, F i = .ok (s i)) →
      ∀ (acc : List Mat),
        (l.foldlM (fun slots i => do
            let tm ← F i
            pure (slots ++ [tm])) acc : Except String (List Mat))
          = .ok (acc ++ l.map s) := by
  intro l
  induction l with
  | nil =>
      intro _ acc
      simp only [List.foldlM_nil, List.map_nil, List.append_nil]
      rfl
  | cons hd tl ih =>
      intro hF acc
      rw [List.foldlM_cons, hF hd (by simp)]
      show (tl.foldlM _ (acc ++ [s hd]) : Except String (List Mat)) = _
      rw [ih (fun i hi => hF i (List.mem_cons_of_mem hd hi)) (acc ++ [s hd])]
      simp

theorem range'_one_eq_cons (K : Nat) (hK : 2 ≤ K) :
    List.range' 1 (K - 1) = 1 :: List.range' 2 (K - 2) := by
  have h1 : K - 1 = (K - 2) + 1 := by omega
  rw [h1, List.range'_succ]

theorem filter_range_ne_zero (K : Nat) (hK : 1 ≤ K) :
    (List.range K).filter (fun j => j ≠ 0) = List.range' 1 (K - 1) := by
  rw [range_eq_cons_range' K hK, List.filter_cons, if_neg (by simp)]
  exact List.filter_eq_self.mpr (fun a ha => by
    have := List.mem_range'_1.mp ha
    simp only [ne_eq, decide_eq_true_eq]
    omega)

theorem looTemp_eq (K : Nat) (hK : 1 ≤ K) (pro : List Mat) (i : Nat) (hi : 1 ≤ i) :
    DenseNet.looTemp K pro i
      = PyVal.tensor (fun b c =>
          (((List.range K).filter (fun j => j ≠ i)).map
            (fun j => DenseNet.looCoeff K * (pro.getD j Mat.zero) b c)).sum) := by
  have hfl : (List.range K).filter (fun j => j ≠ i)
      = 0 :: (List.range' 1 (K - 1)).filter (fun j => j ≠ i) := by
    rw [range_eq_cons_range' K hK, List.filter_cons, if_pos (by simp; omega)]
  rw [DenseNet.looTemp, foldl_ite_ne, hfl, foldl_addSmul_intZero]

theorem avg_xm_eq (K : Nat) (hK : 2 ≤ K) (pro : List Mat) :
    (List.range' 1 (K - 1)).foldl
        (fun acc i => acc.addSmul (DenseNet.looCoeff K) (pro.getD i Mat.zero))
        (PyVal.intVal 0)
      = PyVal.tensor (fun b c =>
          (((List.range K).filter (fun j => j ≠ 0)).map
            (fun j => DenseNet.looCoeff K * (pro.getD j Mat.zero) b c)).sum) := by
  rw [filter_range_ne_zero K (by omega), range'_one_eq_cons K hK, foldl_addSmul_intZero]

theorem avgFuse_eq (K : Nat) (hK : 2 ≤ K) (pro : List Mat) :
    DenseNet.avgFuse K pro
      = .ok ((List.range K).map (fun i => fun b c =>
          (((List.range K).filter (fun j => j ≠ i)).map
            (fun j => DenseNet.looCoeff K * (pro.getD j Mat.zero) b c)).sum)) := by
  unfold DenseNet.avgFuse
  rw [avg_xm_eq K hK pro]
  show (List.range' 1 (K - 1)).foldlM _ _ = _
  rw [foldlM_unsqueeze_ok (fun i => (DenseNet.looTemp K pro i).unsqueezeLast)
    (fun i => fun b c =>
      (((List.range K).filter (fun j => j ≠ i)).map
        (fun j => DenseNet.looCoeff K * (pro.getD j Mat.zero) b c)).sum)
    (List.range' 1 (K - 1))
    (fun i hi => by
      show (DenseNet.looTemp K pro i).unsqueezeLast = Except.ok _
      rw [looTemp_eq K (by omega) pro i (List.mem_range'_1.mp hi).1]
      rfl)]
  rw [range_eq_cons_range' K (by omega), List.map_cons]
  rfl

theorem gated_xm_eq (K : Nat) (hK : 1 ≤ K) (w : Nat → Nat → ℚ) (pro : List Mat)
    (b c : Nat) :
    ((List.range' 1 (K - 1)).foldl
        (fun acc i => fun b c => acc b c + w b i * (pro.getD i Mat.zero) b c)
        (fun b c => w b 0 * (pro.getD 0 Mat.zero) b c)) b c
      = ((List.range K).map (fun i => w b i * (pro.getD i Mat.zero) b c)).sum := by
  rw [foldl_mat_add_apply, range_eq_cons_range' K hK, List.map_cons, List.sum_cons]

theorem densenet_forward_ind (K : Nat) (avg bpscale : Bool) (E : ℚ → ℚ)
    (Cin H W : Nat) (x : FeatMap) (wm : Nat → Nat → ℚ) (bias a bet : Nat → ℚ)
    (h : Nat → Mat) :
    DenseNet.forwardM K true avg bpscale E Cin H W x wm bias a bet h
      = .ok (fanoutPro K h, none) := rfl

theorem densenet_forward_gated (K : Nat) (hK : 1 ≤ K) (bpscale : Bool) (E : ℚ → ℚ)
    (Cin H W : Nat) (x : FeatMap) (wm : Nat → Nat → ℚ) (bias a bet : Nat → ℚ)
    (h : Nat → Mat) :
    DenseNet.forwardM K false false bpscale E Cin H W x wm bias a bet h
      = .ok (fanoutPro K h, some (Fused.gated (fun b c =>
          ((List.range K).map (fun i =>
            gateWeights E K Cin H W x wm bias a bet b i * h i b c)).sum))) := by
  have hxm : ((List.range' 1 (K - 1)).foldl
      (fun acc i => fun b c => acc b c
        + gateWeights E K Cin H W x wm bias a bet b i * ((fanoutPro K h).getD i Mat.zero) b c)
      (fun b c => gateWeights E K Cin H W x wm bias a bet b 0
        * ((fanoutPro K h).getD 0 Mat.zero) b c))
      = (fun b c => ((List.range K).map (fun i =>
          gateWeights E K Cin H W x wm bias a bet b i * h i b c)).sum) := by
    funext b c
    rw [gated_xm_eq K hK]
    exact congrArg List.sum (List.map_congr_left (fun i hi => by
      rw [fanoutPro_getD K hK h i (List.mem_range.mp hi)]))
  cases bpscale <;>
    exact congrArg (fun m => (Except.ok (fanoutPro K h, some (Fused.gated m)) :
      Except String (List Mat × Option Fused))) hxm

theorem densenet_forward_avg (K : Nat) (hK : 2 ≤ K) (bpscale : Bool) (E : ℚ → ℚ)
    (Cin H W : Nat) (x : FeatMap) (wm : Nat → Nat → ℚ) (bias a bet : Nat → ℚ)
    (h : Nat → Mat) :
    DenseNet.forwardM K false true bpscale E Cin H W x wm bias a bet h
      = .ok (fanoutPro K h, some (Fused.loo ((List.range K).map (fun i => fun b c =>
          (((List.range K).filter (fun j => j ≠ i)).map
            (fun j => DenseNet.looCoeff K * h j b c)).sum)))) := by
  have hmap : ((List.range K).map (fun i => fun b c =>
      (((List.range K).filter (fun j => j ≠ i)).map
        (fun j => DenseNet.looCoeff K * ((fanoutPro K h).getD j Mat.zero) b c)).sum))
      = ((List.range K).map (fun i => fun b c =>
      (((List.range K).filter (fun j => j ≠ i)).map
        (fun j => DenseNet.looCoeff K * h j b c)).sum)) := by
    refine List.map_congr_left (fun i hi => ?_)
    funext b c
    refine congrArg List.sum (List.map_congr_left (fun j hj => ?_))
    rw [fanoutPro_getD K (by omega) h j (List.mem_range.mp (List.mem_of_mem_filter hj))]
  have hres : (DenseNet.avgFuse K (fanoutPro K h)).map
      (fun slots => (fanoutPro K h, some (Fused.loo slots)))
      = .ok (fanoutPro K h, some (Fused.loo ((List.range K).map (fun i => fun b c =>
          (((List.range K).filter (fun j => j ≠ i)).map
            (fun j => DenseNet.looCoeff K * h j b c)).sum)))) := by
    rw [avgFuse_eq K hK (fanoutPro K h), ← hmap]
    rfl
  cases bpscale
  · show (DenseNet.avgFuse K (fanoutPro K h)).map _ = _
    exact hres
  · show (DenseNet.avgFuse K (fanoutPro K h)).map _ = _
    exact hres

theorem densenet_forward_avg_K1 (bpscale : Bool) (E : ℚ → ℚ)
    (Cin H W : Nat) (x : FeatMap) (wm : Nat → Nat → ℚ) (bias a bet : Nat → ℚ)
    (h : Nat → Mat) :
    DenseNet.forwardM 1 false true bpscale E Cin H W x wm bias a bet h
      = .error "AttributeError: int object has no attribute unsqueeze" := by
  cases bpscale
  · rfl
  · rfl

theorem except_bind_ok {α β : Type} (x : α) (f : α → Except String β) :
    (Except.ok x >>= f) = f x := rfl

theorem except_bind_error {α β : Type} (e : String) (f : α → Except String β) :
    ((Except.error e : Except String α) >>= f) = .error e := rfl

theorem append_ne_of_take_ne (p t : String) (n : Nat) (hn : n ≤ p.data.length)
    (hd : p.data.take n ≠ t.data.take n) (s : String) : p ++ s ≠ t := by
  intro he
  have hdata : p.data ++ s.data = t.data := by
    have h2 := congrArg String.data he
    rwa [String.data_append] at h2
  exact hd (by rw [← hdata, List.take_append_of_le_length hn])

theorem not_mem_map_pre (t pre : String) (l : List Nat)
    (hne : ∀ s, pre ++ s ≠ t) : t ∉ l.map (fun i => pre ++ toString i) := by
  intro hm
  obtain ⟨i, _, heq⟩ := List.mem_map.mp hm
  exact hne (toString i) heq

theorem not_mem_flatMap_pair (t pre1 pre2 : String) (l : List Nat)
    (h1 : ∀ s, pre1 ++ s ≠ t) (h2 : ∀ s, pre2 ++ s ≠ t) :
    t ∉ l.flatMap (fun i => [pre1 ++ toString i, pre2 ++ toString i]) := by
  intro hm
  obtain ⟨i, _, hin⟩ := List.mem_flatMap.mp hm
  rcases List.mem_cons.mp hin with h | h
  · exact h1 (toString i) h.symm
  · exact h2 (toString i) (List.mem_singleton.mp h).symm

theorem avgpool_not_mem_mobilenet (K : Nat) (avg : Bool) :
    "avgpool" ∉ MobileNetV2.initAttrs K avg := by
  intro hmem
  unfold MobileNetV2.initAttrs at hmem
  rcases List.mem_append.mp hmem with h | h
  · rcases List.mem_append.mp h with h | h
    · exact absurd h (by decide)
    · exact not_mem_flatMap_pair "avgpool" "layer4_" "classifier4_" _
        (append_ne_of_take_ne "layer4_" "avgpool" 1 (by decide) (by decide))
        (append_ne_of_take_ne "classifier4_" "avgpool" 1 (by decide) (by decide)) h
  · cases avg <;> simp_all

theorem layer4_mem (K : Nat) (avg : Bool) (i : Nat) (hi : i < K) :
    ("layer4_" ++ toString i) ∈ MobileNetV2.initAttrs K avg := by
  refine List.mem_append.mpr (Or.inl (List.mem_append.mpr (Or.inr ?_)))
  exact List.mem_flatMap.mpr ⟨i, List.mem_range.mpr hi, by simp⟩

theorem getattrE_ok (K : Nat) (avg : Bool) (name : String)
    (hmem : name ∈ MobileNetV2.initAttrs K avg) :
    MobileNetV2.getattrE K avg name = .ok () := by
  unfold MobileNetV2.getattrE
  rw [if_pos hmem]

theorem getattrE_avgpool (K : Nat) (avg : Bool) :
    MobileNetV2.getattrE K avg "avgpool" = .error "avgpool" := by
  unfold MobileNetV2.getattrE
  rw [if_neg (avgpool_not_mem_mobilenet K avg)]

theorem mobilenet_fanout_error (K : Nat) (hK : 2 ≤ K) (avg : Bool) (h : Nat → Mat) :
    MobileNetV2.fanout K avg h = .error "avgpool" := by
  unfold MobileNetV2.fanout
  rw [getattrE_ok K avg "layer4_0"
      (by
        have h0 := layer4_mem K avg 0 (by omega)
        have heq : ("layer4_" ++ toString 0) = "layer4_0" := rfl
        rwa [heq] at h0),
    except_bind_ok]
  rw [getattrE_ok K avg "classifier4_0"
      (by
        refine List.mem_append.mpr (Or.inl (List.mem_append.mpr (Or.inr ?_)))
        exact List.mem_flatMap.mpr ⟨0, List.mem_range.mpr (by omega), by decide⟩),
    except_bind_ok]
  rw [range'_one_eq_cons K hK]
  simp only [List.foldlM_cons]
  rw [getattrE_ok K avg ("layer4_" ++ toString 1) (layer4_mem K avg 1 (by omega)),
    except_bind_ok, getattrE_avgpool K avg, except_bind_error, except_bind_error]

theorem mobilenet_forward_error (K : Nat) (hK : 2 ≤ K) (ind avg : Bool) (E : ℚ → ℚ)
    (Cin H W : Nat) (x : FeatMap) (wm : Nat → Nat → ℚ) (bias a bet : Nat → ℚ)
    (h : Nat → Mat) :
    MobileNetV2.forwardM K ind avg E Cin H W x wm bias a bet h = .error "avgpool" := by
  unfold MobileNetV2.forwardM
  rw [mobilenet_fanout_error K hK avg h, except_bind_error]

theorem mobilenet_fanout_K1 (avg : Bool) (h : Nat → Mat) :
    MobileNetV2.fanout 1 avg h = .ok [h 0] := by
  cases avg <;> rfl

theorem mobilenet_forward_ind_none (K : Nat) (avg : Bool) (E : ℚ → ℚ)
    (Cin H W : Nat) (x : FeatMap) (wm : Nat → Nat → ℚ) (bias a bet : Nat → ℚ)
    (h : Nat → Mat) (p : List Mat) (f : Option Fused)
    (hok : MobileNetV2.forwardM K true avg E Cin H W x wm bias a bet h = .ok (p, f)) :
    f = none := by
  unfold MobileNetV2.forwardM at hok
  cases hfan : MobileNetV2.fanout K avg h with
  | error e =>
      rw [hfan, except_bind_error] at hok
      exact Except.noConfusion hok
  | ok pro =>
      rw [hfan, except_bind_ok] at hok
      have h2 : Except.ok (ε := String) (pro, (none : Option Fused)) = Except.ok (p, f) := hok
      have h3 := Except.ok.inj h2
      injection h3 with h4 h5
      exact h5.symm

theorem mutualnet_unknown_error (model : String)
    (hmodel : model ∉ MutualNet.recognizedModels) (K C : Nat) (hK : 1 ≤ K) :
    MutualNet.initM model K C = .error ("NotImplementedError: " ++ model) := by
  unfold MutualNet.initM
  rw [range_eq_cons_range' K hK]
  simp only [List.foldlM_cons]
  have hb : MutualNet.buildStu model C = .error ("NotImplementedError: " ++ model) := by
    unfold MutualNet.buildStu
    rw [if_neg hmodel]
  rw [hb, except_bind_error, except_bind_error]

theorem control_v1_mem_densenet_iff (K : Nat) (avg bpscale : Bool) :
    "control_v1" ∈ DenseNet.initAttrs K avg bpscale ↔ avg = false := by
  constructor
  · intro hmem
    cases avg
    · rfl
    · exfalso
      unfold DenseNet.initAttrs at hmem
      rcases List.mem_append.mp hmem with h | h
      · rcases List.mem_append.mp h with h | h
        · rcases List.mem_append.mp h with h | h
          · rcases List.mem_append.mp h with h | h
            · rcases List.mem_append.mp h with h | h
              · rcases List.mem_append.mp h with h | h
                · exact absurd h (by decide)
                · exact not_mem_map_pre "control_v1" "layer3_" _
                    (append_ne_of_take_ne "layer3_" "control_v1" 1 (by decide) (by decide)) h
              · simp at h
            · exact not_mem_flatMap_pair "control_v1" "norm_final_" "relu_final_" _
                (append_ne_of_take_ne "norm_final_" "control_v1" 1 (by decide) (by decide))
                (append_ne_of_take_ne "relu_final_" "control_v1" 1 (by decide) (by decide)) h
          · exact not_mem_map_pre "control_v1" "classifier3_" _
              (append_ne_of_take_ne "classifier3_" "control_v1" 2 (by decide) (by decide)) h
        · exact absurd h (by decide)
      · cases bpscale <;> simp_all
  · intro havg
    subst havg
    unfold DenseNet.initAttrs
    exact List.mem_append.mpr (Or.inl (List.mem_append.mpr (Or.inl
      (List.mem_append.mpr (Or.inl (List.mem_append.mpr (Or.inl
        (List.mem_append.mpr (Or.inr (by decide))))))))))

theorem bn_v1_mem_densenet_iff (K : Nat) (avg bpscale : Bool) :
    "bn_v1" ∈ DenseNet.initAttrs K avg bpscale ↔ avg = false := by
  constructor
  · intro hmem
    cases avg
    · rfl
    · exfalso
      unfold DenseNet.initAttrs at hmem
      rcases List.mem_append.mp hmem with h | h
      · rcases List.mem_append.mp h with h | h
        · rcases List.mem_append.mp h with h | h
          · rcases List.mem_append.mp h with h | h
            · rcases List.mem_append.mp h with h | h
              · rcases List.mem_append.mp h with h | h
                · exact absurd h (by decide)
                · exact not_mem_map_pre "bn_v1" "layer3_" _
                    (append_ne_of_take_ne "layer3_" "bn_v1" 1 (by decide) (by decide)) h
              · simp at h
            · exact not_mem_flatMap_pair "bn_v1" "norm_final_" "relu_final_" _
                (append_ne_of_take_ne "norm_final_" "bn_v1" 1 (by decide) (by decide))
                (append_ne_of_take_ne "relu_final_" "bn_v1" 1 (by decide) (by decide)) h
          · exact not_mem_map_pre "bn_v1" "classifier3_" _
              (append_ne_of_take_ne "classifier3_" "bn_v1" 1 (by decide) (by decide)) h
        · exact absurd h (by decide)
      · cases bpscale <;> simp_all
  · intro havg
    subst havg
    unfold DenseNet.initAttrs
    exact List.mem_append.mpr (Or.inl (List.mem_append.mpr (Or.inl
      (List.mem_append.mpr (Or.inl (List.mem_append.mpr (Or.inl
        (List.mem_append.mpr (Or.inr (by decide))))))))))

theorem control_v1_mem_mobilenet_iff (K : Nat) (avg : Bool) :
    "control_v1" ∈ MobileNetV2.initAttrs K avg ↔ avg = false := by
  constructor
  · intro hmem
    cases avg
    · rfl
    · exfalso
      unfold MobileNetV2.initAttrs at hmem
      rcases List.mem_append.mp hmem with h | h
      · rcases List.mem_append.mp h with h | h
        · exact absurd h (by decide)
        · exact not_mem_flatMap_pair "control_v1" "layer4_" "classifier4_" _
            (append_ne_of_take_ne "layer4_" "control_v1" 1 (by decide) (by decide))
            (append_ne_of_take_ne "classifier4_" "control_v1" 2 (by decide) (by decide)) h
      · simp at h
  · intro havg
    subst havg
    unfold MobileNetV2.initAttrs
    exact List.mem_append.mpr (Or.inr (by decide))

theorem bn_v1_mem_mobilenet_iff (K : Nat) (avg : Bool) :
    "bn_v1" ∈ MobileNetV2.initAttrs K avg ↔ avg = false := by
  constructor
  · intro hmem
    cases avg
    · rfl
    · exfalso
      unfold MobileNetV2.initAttrs at hmem
      rcases List.mem_append.mp hmem with h | h
      · rcases List.mem_append.mp h with h | h
        · exact absurd h (by decide)
        · exact not_mem_flatMap_pair "bn_v1" "layer4_" "classifier4_" _
            (append_ne_of_take_ne "layer4_" "bn_v1" 1 (by decide) (by decide))
            (append_ne_of_take_ne "classifier4_" "bn_v1" 1 (by decide) (by decide)) h
      · simp at h
  · intro havg
    subst havg
    unfold MobileNetV2.initAttrs
    exact List.mem_append.mpr (Or.inr (by decide))

/-- C1 (amended): for DenseNet, under the spec's validity conditions (`K ≥ 1`,
and `K ≥ 2` whenever leave-one-out-average mode is reachable), `forward`
returns, in every mode, the per-branch logits tensor `fanoutPro K h`, which
has last-axis length exactly `K` with branch `i`'s logits at index `i` in
ascending order (`K = 1` yields a singleton axis).  For MobileNetV2 the same
holds only for `K = 1`: its fan-out succeeds exactly then (see C4 for the
failure at `K ≥ 2`). -/
theorem claim_C1_per_branch_logits :
    (∀ (K : Nat), 1 ≤ K → ∀ (ind avg bpscale : Bool) (E : ℚ → ℚ) (Cin H W : Nat)
        (x : FeatMap) (wm : Nat → Nat → ℚ) (bias a bet : Nat → ℚ) (h : Nat → Mat),
        (ind = false → avg = true → 2 ≤ K) →
        ∃ fused : Option Fused,
          DenseNet.forwardM K ind avg bpscale E Cin H W x wm bias a bet h
            = .ok (fanoutPro K h, fused)) ∧
    (∀ (K : Nat), 1 ≤ K → ∀ (h : Nat → Mat),
        (fanoutPro K h).length = K ∧
        ∀ i, i < K → (fanoutPro K h).getD i Mat.zero = h i) ∧
    (∀ (avg : Bool) (h : Nat → Mat), MobileNetV2.fanout 1 avg h = .ok [h 0]) := by
  refine ⟨?_, ?_, mobilenet_fanout_K1⟩
  · intro K hK ind avg bpscale E Cin H W x wm bias a bet h hvalid
    cases ind
    · cases avg
      · exact ⟨_, densenet_forward_gated K hK bpscale E Cin H W x wm bias a bet h⟩
      · exact ⟨_, densenet_forward_avg K (hvalid rfl rfl) bpscale E Cin H W x wm bias a bet h⟩
    · exact ⟨none, densenet_forward_ind K avg bpscale E Cin H W x wm bias a bet h⟩
  · intro K hK h
    exact ⟨fanoutPro_length K hK h, fun i hi => fanoutPro_getD K hK h i hi⟩

theorem claim_C1_per_branch_logits_witness :
    (∃ fused : Option Fused,
        DenseNet.forwardM 2 false false false oneE 1 1 1 zFeat zW zV zV zV hC3
          = .ok (fanoutPro 2 hC3, fused)) ∧
    (fanoutPro 2 hC3).length = 2 ∧
    MobileNetV2.fanout 1 false hC3 = .ok [hC3 0] :=
  ⟨claim_C1_per_branch_logits.1 2 (by norm_num) false false false oneE 1 1 1
      zFeat zW zV zV zV hC3 (fun _ _ => by norm_num),
   (claim_C1_per_branch_logits.2.1 2 (by norm_num) hC3).1,
   claim_C1_per_branch_logits.2.2 false hC3⟩

/-- C1 counterexample: with the valid configuration `num_branches = 2`,
gated fusion, MobileNetV2's forward does not return a per-branch logits
tensor at all — it fails on the undefined `avgpool` attribute. -/
theorem claim_C1_per_branch_logits_cex :
    MobileNetV2.forwardM 2 false false oneE 1 1 1 zFeat zW zV zV zV hC3
      = .error "avgpool" := rfl

/-- C2: in gated fusion mode (`ind = False`, `avg = False`), the fused logits
equal `Σ_{i=0}^{K-1} weights[:, i] * per_branch_logits[:, :, i]` pointwise
(the gate weight broadcast over the class axis), with the weights produced by
the gate pipeline on the shared trunk features. -/
theorem claim_C2_gated_weighted_sum (K : Nat) (hK : 1 ≤ K) (bpscale : Bool)
    (E : ℚ → ℚ) (Cin H W : Nat) (x : FeatMap) (wm : Nat → Nat → ℚ)
    (bias a bet : Nat → ℚ) (h : Nat → Mat) :
    DenseNet.forwardM K false false bpscale E Cin H W x wm bias a bet h
      = .ok (fanoutPro K h, some (Fused.gated (fun b c =>
          ((List.range K).map (fun i =>
            gateWeights E K Cin H W x wm bias a bet b i * h i b c)).sum))) :=
  densenet_forward_gated K hK bpscale E Cin H W x wm bias a bet h

theorem claim_C2_gated_weighted_sum_witness :
    DenseNet.forwardM 2 false false false oneE 1 1 1 zFeat zW zV zV zV hC3
      = .ok (fanoutPro 2 hC3, some (Fused.gated (fun b c =>
          ((List.range 2).map (fun i =>
            gateWeights oneE 2 1 1 1 zFeat zW zV zV zV b i * hC3 i b c)).sum))) :=
  claim_C2_gated_weighted_sum 2 (by norm_num) false oneE 1 1 1 zFeat zW zV zV zV hC3

/-- C3 (amended): in leave-one-out-average mode with `K ≥ 2`, the fused
output has a branch axis of size `K` (not `K - 1`): slot `i` holds
`1/(K-1) · Σ_{j ≠ i} per_branch_logits[:, :, j]` for every `i < K`,
including `i = 0` — the first accumulation loop computes exactly the
leave-`0`-out average and it becomes slot 0. -/
theorem claim_C3_loo_fusion (K : Nat) (hK : 2 ≤ K) (bpscale : Bool) (E : ℚ → ℚ)
    (Cin H W : Nat) (x : FeatMap) (wm : Nat → Nat → ℚ) (bias a bet : Nat → ℚ)
    (h : Nat → Mat) :
    ∃ slots : List Mat,
      DenseNet.forwardM K false true bpscale E Cin H W x wm bias a bet h
        = .ok (fanoutPro K h, some (Fused.loo slots)) ∧
      slots.length = K ∧
      ∀ i, i < K → ∀ b c, slots.getD i Mat.zero b c
        = DenseNet.looCoeff K
            * (((List.range K).filter (fun j => j ≠ i)).map (fun j => h j b c)).sum := by
  refine ⟨_, densenet_forward_avg K hK bpscale E Cin H W x wm bias a bet h, by simp, ?_⟩
  intro i hi b c
  rw [List.getD_eq_getElem?_getD, List.getElem?_map, List.getElem?_range hi]
  show (((List.range K).filter (fun j => j ≠ i)).map
      (fun j => DenseNet.looCoeff K * h j b c)).sum = _
  rw [List.sum_map_mul_left]

theorem claim_C3_loo_fusion_witness :
    ∃ slots : List Mat,
      DenseNet.forwardM 3 false true false oneE 1 1 1 zFeat zW zV zV zV hC3
        = .ok (fanoutPro 3 hC3, some (Fused.loo slots)) ∧
      slots.length = 3 ∧
      ∀ i, i < 3 → ∀ b c, slots.getD i Mat.zero b c
        = DenseNet.looCoeff 3
            * (((List.range 3).filter (fun j => j ≠ i)).map (fun j => hC3 j b c)).sum :=
  claim_C3_loo_fusion 3 (by norm_num) false oneE 1 1 1 zFeat zW zV zV zV hC3

/-- C3 counterexample: with `K = 3` and branch logits `1, 2, 4`, the fused
axis has size 3 (the claim says `K - 1 = 2`), and index 0 of the fused axis
is populated — with the leave-`0`-out average `(2 + 4) / 2 = 3` (the claim
says index 0 is never populated). -/
theorem claim_C3_loo_fusion_cex :
    (fusedSlots (DenseNet.forwardM 3 false true false oneE 1 1 1
        zFeat zW zV zV zV hC3)).length = 3 ∧
    (fusedSlots (DenseNet.forwardM 3 false true false oneE 1 1 1
        zFeat zW zV zV zV hC3)).getD 0 Mat.zero 0 0 = 3 := by
  have h := densenet_forward_avg 3 (by norm_num) false oneE 1 1 1 zFeat zW zV zV zV hC3
  rw [h]
  constructor
  · rfl
  · show ((List.range 3).map (fun i => fun b c =>
        (((List.range 3).filter (fun j => j ≠ i)).map
          (fun j => DenseNet.looCoeff 3 * hC3 j b c)).sum)).getD 0 Mat.zero 0 0 = 3
    rw [(by decide : List.range 3 = [0, 1, 2])]
    simp only [List.map_cons, List.map_nil, List.getD_cons_zero]
    rw [(by decide : ([0, 1, 2] : List Nat).filter (fun j => j ≠ 0) = [1, 2])]
    norm_num [DenseNet.looCoeff, hC3, List.getD_cons_zero, List.getD_cons_succ]

/-- C4: MobileNetV2's branch-head loop for `i ≥ 1` reads `self.avgpool`, an
attribute its constructor never defines (branch 0 uses the library function
`F.adaptive_avg_pool2d` instead), so with `num_branches ≥ 2` every forward
call fails with `AttributeError` on `avgpool`, in every mode and for every
input; the per-branch fan-out succeeds only when `num_branches = 1`. -/
theorem claim_C4_mobilenet_avgpool_missing :
    (∀ (K : Nat), 2 ≤ K → ∀ (ind avg : Bool) (E : ℚ → ℚ) (Cin H W : Nat)
        (x : FeatMap) (wm : Nat → Nat → ℚ) (bias a bet : Nat → ℚ) (h : Nat → Mat),
        MobileNetV2.forwardM K ind avg E Cin H W x wm bias a bet h
          = .error "avgpool") ∧
    (∀ (avg : Bool) (h : Nat → Mat), MobileNetV2.fanout 1 avg h = .ok [h 0]) ∧
    (∀ (K : Nat) (avg : Bool), "avgpool" ∉ MobileNetV2.initAttrs K avg) :=
  ⟨fun K hK ind avg E Cin H W x wm bias a bet h =>
      mobilenet_forward_error K hK ind avg E Cin H W x wm bias a bet h,
   mobilenet_fanout_K1,
   avgpool_not_mem_mobilenet⟩

theorem claim_C4_mobilenet_avgpool_missing_witness :
    MobileNetV2.forwardM 3 true false oneE 1 1 1 zFeat zW zV zV zV hC3
      = .error "avgpool" ∧
    MobileNetV2.fanout 1 true hC3 = .ok [hC3 0] :=
  ⟨claim_C4_mobilenet_avgpool_missing.1 3 (by norm_num) true false oneE 1 1 1
      zFeat zW zV zV zV hC3,
   claim_C4_mobilenet_avgpool_missing.2.1 true hC3⟩

/-- C7: in independent mode (`ind = True`) the second component of
`forward`'s result is the no-value sentinel `None` — for DenseNet the result
is always `(pro, None)`, and for MobileNetV2 every successful call returns a
`None` second component — regardless of the input and of the other
configuration flags. -/
theorem claim_C7_independent_fused_absent :
    (∀ (K : Nat) (avg bpscale : Bool) (E : ℚ → ℚ) (Cin H W : Nat) (x : FeatMap)
        (wm : Nat → Nat → ℚ) (bias a bet : Nat → ℚ) (h : Nat → Mat),
        DenseNet.forwardM K true avg bpscale E Cin H W x wm bias a bet h
          = .ok (fanoutPro K h, none)) ∧
    (∀ (K : Nat) (avg : Bool) (E : ℚ → ℚ) (Cin H W : Nat) (x : FeatMap)
        (wm : Nat → Nat → ℚ) (bias a bet : Nat → ℚ) (h : Nat → Mat)
        (p : List Mat) (f : Option Fused),
        MobileNetV2.forwardM K true avg E Cin H W x wm bias a bet h = .ok (p, f)
          → f = none) :=
  ⟨fun K avg bpscale E Cin H W x wm bias a bet h =>
      densenet_forward_ind K avg bpscale E Cin H W x wm bias a bet h,
   fun K avg E Cin H W x wm bias a bet h p f hok =>
      mobilenet_forward_ind_none K avg E Cin H W x wm bias a bet h p f hok⟩

theorem claim_C7_independent_fused_absent_witness :
    DenseNet.forwardM 1 true false false oneE 1 1 1 zFeat zW zV zV zV hC3
      = .ok (fanoutPro 1 hC3, none) ∧
    (none : Option Fused) = none :=
  ⟨claim_C7_independent_fused_absent.1 1 false false oneE 1 1 1 zFeat zW zV zV zV hC3,
   claim_C7_independent_fused_absent.2 1 false oneE 1 1 1 zFeat zW zV zV zV hC3
      [hC3 0] none rfl⟩

/-- C8 (amended): constructing a DenseNet with leave-one-out-average mode and
`num_branches = 1` does NOT fail at construction time — `__init__` validates
only the compression bound — and the degenerate configuration instead fails
at forward time: the fused accumulator is still the Python integer 0 after
the empty loop and `x_m.unsqueeze(-1)` raises `AttributeError` (the division
by `K - 1 = 0` is never evaluated, since the loop body never runs). -/
theorem claim_C8_loo_K1_fails_at_forward :
    (∀ (ind bpscale : Bool), DenseNet.initCheck (1 / 2) 1 true ind bpscale = .ok ()) ∧
    (∀ (bpscale : Bool) (E : ℚ → ℚ) (Cin H W : Nat) (x : FeatMap)
        (wm : Nat → Nat → ℚ) (bias a bet : Nat → ℚ) (h : Nat → Mat),
        DenseNet.forwardM 1 false true bpscale E Cin H W x wm bias a bet h
          = .error "AttributeError: int object has no attribute unsqueeze") := by
  constructor
  · intro ind bpscale
    unfold DenseNet.initCheck
    rw [if_pos (by norm_num)]
  · exact densenet_forward_avg_K1

/-- C8 counterexample: the construction of the `avg = True`, `K = 1`
configuration (default compression `0.5`) succeeds — no construction-time
failure occurs, contradicting the claim that it must fail at construction. -/
theorem claim_C8_loo_K1_fails_at_forward_cex :
    DenseNet.initCheck (1 / 2) 1 true false false = .ok () := by
  unfold DenseNet.initCheck
  rw [if_pos (by norm_num)]

/-- C9 (amended): the gate (`control_v1` linear layer and `bn_v1` batch-norm)
is constructed if and only if `avg = False`, for both DenseNet and
MobileNetV2.  It is therefore present in gated mode and absent in
leave-one-out-average mode, but in independent mode (`ind = True`, with
`avg` at its default `False`) the gate parameters are also constructed,
because the constructors test only `avg` and never `ind`. -/
theorem claim_C9_gate_constructed_iff_not_avg :
    (∀ (K : Nat) (avg bpscale : Bool),
        ("control_v1" ∈ DenseNet.initAttrs K avg bpscale ↔ avg = false) ∧
        ("bn_v1" ∈ DenseNet.initAttrs K avg bpscale ↔ avg = false)) ∧
    (∀ (K : Nat) (avg : Bool),
        ("control_v1" ∈ MobileNetV2.initAttrs K avg ↔ avg = false) ∧
        ("bn_v1" ∈ MobileNetV2.initAttrs K avg ↔ avg = false)) :=
  ⟨fun K avg bpscale =>
      ⟨control_v1_mem_densenet_iff K avg bpscale, bn_v1_mem_densenet_iff K avg bpscale⟩,
   fun K avg =>
      ⟨control_v1_mem_mobilenet_iff K avg, bn_v1_mem_mobilenet_iff K avg⟩⟩

/-- C9 counterexample: in the independent configuration (`ind = True`, `avg`
at its source default `False`), the gate parameters DO exist on the
constructed model, for both architectures — contradicting the claim that no
gate parameters exist in independent mode. -/
theorem claim_C9_gate_constructed_iff_not_avg_cex :
    (FusionMode.independent.flags).1 = true ∧
    "control_v1" ∈ DenseNet.initAttrs 3 (FusionMode.independent.flags).2 false ∧
    "bn_v1" ∈ DenseNet.initAttrs 3 (FusionMode.independent.flags).2 false ∧
    "control_v1" ∈ MobileNetV2.initAttrs 3 (FusionMode.independent.flags).2 ∧
    "bn_v1" ∈ MobileNetV2.initAttrs 3 (FusionMode.independent.flags).2 := by
  refine ⟨rfl, ?_, ?_, ?_, ?_⟩ <;> decide

/-- C10: constructing a `MutualNet` with an architecture family name outside
the recognized set fails at construction time with a `NotImplementedError`
naming the unknown family, before any student branch is attached — no
partially-built model is returned and no default architecture is
substituted. -/
theorem claim_C10_unknown_family_fails (model : String)
    (hmodel : model ∉ MutualNet.recognizedModels)
    (num_branches num_classes : Nat) (hK : 1 ≤ num_branches) :
    MutualNet.initM model num_branches num_classes
      = .error ("NotImplementedError: " ++ model) :=
  mutualnet_unknown_error model hmodel num_branches num_classes hK

theorem claim_C10_unknown_family_fails_witness :
    MutualNet.initM "alexnet" 4 10 = .error ("NotImplementedError: " ++ "alexnet") :=
  claim_C10_unknown_family_fails "alexnet" (by decide) 4 10 (by norm_num)
